import Mathlib

/-
Verification of the stake-o-matic staking policy tool
(src/stake-o-matic/src/main.rs) against its natural-language
specification.  The Rust source is shallowly embedded: chain reads are
supplied as explicit oracle inputs, process exits and propagated errors
are both modelled as Except.error, and u64 arithmetic that can wrap is
modelled with explicit modular arithmetic over Nat.
-/

set_option maxRecDepth 4000

namespace StakeOMatic

/-- Slots are u64 values on chain; modelled as Nat. -/
abbrev Slot := Nat

/-- Lamport balances are u64 values; modelled as Nat. -/
abbrev Lamports := Nat

/-- Public keys appear in the source as base58 strings (RpcVoteAccountInfo
keeps them as String and the code parses them with from_str); the model
keeps the textual form, which is all the seed derivation uses. -/
abbrev Pubkey := String

/-- The relevant fields of the Config struct built by get_config.
The CLI and file-loading fields are out of scope; the whitelist is kept
as a separate parameter where it is used. -/
structure Config where
  source_stake_address : Pubkey
  authorized_staker : Pubkey
  dry_run : Bool
  baseline_stake_amount : Lamports
  bonus_stake_amount : Lamports
  quality_block_producer_percentage : Nat
  delinquent_grace_slot_distance : Nat
deriving Repr, DecidableEq

/-- The fields of RpcVoteAccountInfo that main destructures: vote pubkey,
node (identity) pubkey and the root slot. -/
structure VoteAccountInfo where
  vote_pubkey : Pubkey
  node_pubkey : Pubkey
  root_slot : Slot
deriving Repr, DecidableEq

/- ## Block production classifier (classify_block_producers) -/

/-- Count of leader-schedule slots for one validator that fall at or after
the clamped window start: the source counts relative slots whose absolute
slot (first_slot_in_epoch + relative) is >= first_slot. -/
def countAssigned (first_slot_in_epoch first_slot : Slot) (relative_slots : List Nat) : Nat :=
  (relative_slots.filter (fun r => first_slot ≤ first_slot_in_epoch + r)).length

/-- Count of those window slots that appear in the confirmed-block set. -/
def countProduced (first_slot_in_epoch first_slot : Slot) (confirmed : List Slot)
    (relative_slots : List Nat) : Nat :=
  (relative_slots.filter
    (fun r => first_slot ≤ first_slot_in_epoch + r && confirmed.contains (first_slot_in_epoch + r))).length

/-- One iteration of the classifier loop: skip validators with zero
window slots, otherwise insert into the quality accumulator when
produced * 100 / assigned exceeds the threshold, else into the poor one. -/
def classifyStep (first_slot_in_epoch first_slot : Slot) (confirmed : List Slot) (pct : Nat)
    (acc : List Pubkey × List Pubkey) (e : Pubkey × List Nat) : List Pubkey × List Pubkey :=
  let c := countAssigned first_slot_in_epoch first_slot e.2
  let b := countProduced first_slot_in_epoch first_slot confirmed e.2
  if 0 < c then
    if pct < b * 100 / c then (acc.1 ++ [e.1], acc.2)
    else (acc.1, acc.2 ++ [e.1])
  else acc

/-- The classifier loop over the leader schedule, producing the
(quality, poor) block producer sets.  The source builds two HashSets;
the model builds lists whose membership matches the sets, the schedule
being a key-value list standing for the leader-schedule HashMap. -/
def classifyWindow (first_slot_in_epoch first_slot : Slot) (confirmed : List Slot) (pct : Nat)
    (sched : List (Pubkey × List Nat)) : List Pubkey × List Pubkey :=
  sched.foldl (classifyStep first_slot_in_epoch first_slot confirmed pct) ([], [])

/-- classify_block_producers: fail when the minimum ledger slot is at or
past the last epoch slot, otherwise clamp the window start to the larger
of the epoch first slot and the minimum ledger slot and classify.  The
confirmed-block list and leader schedule are the oracle answers of the
two RPC fetches. -/
def classify_block_producers (pct : Nat) (minimum_ledger_slot : Slot) (confirmed : List Slot)
    (sched : List (Pubkey × List Nat)) (first_slot_in_epoch last_slot_in_epoch : Slot) :
    Except String (List Pubkey × List Pubkey) :=
  if minimum_ledger_slot ≥ last_slot_in_epoch then
    .error "Minimum ledger slot is newer than the last epoch"
  else
    let first_slot :=
      if minimum_ledger_slot > first_slot_in_epoch then minimum_ledger_slot
      else first_slot_in_epoch
    .ok (classifyWindow first_slot_in_epoch first_slot confirmed pct sched)

/- ## Classifier lemmas -/

/-- The quality side of one classifier entry, as the option the fold
appends for it. -/
def qualityOf (first_slot_in_epoch first_slot : Slot) (confirmed : List Slot) (pct : Nat)
    (e : Pubkey × List Nat) : Option Pubkey :=
  let c := countAssigned first_slot_in_epoch first_slot e.2
  let b := countProduced first_slot_in_epoch first_slot confirmed e.2
  if 0 < c then (if pct < b * 100 / c then some e.1 else none) else none

/-- The poor side of one classifier entry. -/
def poorOf (first_slot_in_epoch first_slot : Slot) (confirmed : List Slot) (pct : Nat)
    (e : Pubkey × List Nat) : Option Pubkey :=
  let c := countAssigned first_slot_in_epoch first_slot e.2
  let b := countProduced first_slot_in_epoch first_slot confirmed e.2
  if 0 < c then (if pct < b * 100 / c then none else some e.1) else none

/- ## Account state reader (get_stake_account) -/

/-- The decoded StakeState variants of the stake program. -/
inductive StakeStateKind
  | uninitialized
  | initialized
  | stake
  | rewardsPool
deriving Repr, DecidableEq

/-- The owner id of the stake program, textual like every pubkey here. -/
def stakeProgramId : Pubkey := "Stake11111111111111111111111111111111111111"

/-- Decidable equality for Except values with decidable components. -/
instance {α β : Type} [DecidableEq α] [DecidableEq β] : DecidableEq (Except α β) := fun x y =>
  match x, y with
  | .error a, .error b =>
    if h : a = b then isTrue (h ▸ rfl) else isFalse (fun hh => h (Except.error.inj hh))
  | .ok a, .ok b =>
    if h : a = b then isTrue (h ▸ rfl) else isFalse (fun hh => h (Except.ok.inj hh))
  | .error _, .ok _ => isFalse (fun hh => Except.noConfusion hh)
  | .ok _, .error _ => isFalse (fun hh => Except.noConfusion hh)

/-- The parts of an on-chain account that get_stake_account reads:
lamports, owner, and the result of decoding its state. -/
structure Account where
  lamports : Lamports
  owner : Pubkey
  state : Except String StakeStateKind
deriving Repr, DecidableEq

/-- get_stake_account, with the RPC get_account answer supplied as the
fetch argument: a fetch failure, a non-stake-program owner, or a state
decode failure each become an error string; otherwise the lamports and
decoded state are returned. -/
def get_stake_account (fetch : Except String Account) (address : Pubkey) :
    Except String (Lamports × StakeStateKind) :=
  match fetch with
  | .error e => .error ("Failed to fetch stake account " ++ address ++ ": " ++ e)
  | .ok account =>
    if account.owner ≠ stakeProgramId then
      .error ("not a stake account (owned by " ++ account.owner ++ "): " ++ address)
    else
      match account.state with
      | .error e => .error ("Failed to decode stake account at " ++ address ++ ": " ++ e)
      | .ok stake_state => .ok (account.lamports, stake_state)

/- ## Address derivation and seeds -/

/-- Modelled from the spec: Pubkey::create_with_seed comes from the
solana_sdk crate, not from src/; spec 4.1 describes it as a pure,
deterministic mapping from (authority key, seed) to an account address.
Modelled as tagged concatenation, which is pure, deterministic, and
injective in the seed for a fixed authority. -/
def create_with_seed (base : Pubkey) (seed : String) : Pubkey :=
  base ++ ":" ++ seed

/-- The baseline seed: the first 32 characters of the vote pubkey text. -/
def baselineSeed (vote_pubkey : Pubkey) : String := vote_pubkey.take 32

/-- The bonus seed: the first 32 characters of the literal A\x7b followed
by the vote pubkey text (the Rust format string A{{{} renders as A, an
opening brace, then the vote pubkey). -/
def bonusSeed (vote_pubkey : Pubkey) : String := ("A\x7b" ++ vote_pubkey).take 32

/-- The derived baseline stake account address for a validator. -/
def baselineAddress (cfg : Config) (vote_pubkey : Pubkey) : Pubkey :=
  create_with_seed cfg.authorized_staker (baselineSeed vote_pubkey)

/-- The derived bonus stake account address for a validator. -/
def bonusAddress (cfg : Config) (vote_pubkey : Pubkey) : Pubkey :=
  create_with_seed cfg.authorized_staker (bonusSeed vote_pubkey)

/- ## Transaction intents -/

/-- The stake instructions the tool builds (one per transaction). -/
inductive StakeInstruction
  | splitWithSeed (source authorized : Pubkey) (lamports : Lamports)
      (splitAddress : Pubkey) (base : Pubkey) (seed : String)
  | delegateStake (stakeAddress authorized vote : Pubkey)
  | deactivateStake (stakeAddress authorized : Pubkey)
deriving Repr, DecidableEq

/-- An unsigned transaction paired with the validator its memo names. -/
structure TxIntent where
  instruction : StakeInstruction
  validator : Pubkey
deriving Repr, DecidableEq

/-- The create transaction for a missing baseline stake account. -/
def baselineCreateIntent (cfg : Config) (vai : VoteAccountInfo) : TxIntent :=
  ⟨.splitWithSeed cfg.source_stake_address cfg.authorized_staker cfg.baseline_stake_amount
      (baselineAddress cfg vai.vote_pubkey) cfg.authorized_staker (baselineSeed vai.vote_pubkey),
   vai.node_pubkey⟩

/-- The create transaction for a missing bonus stake account. -/
def bonusCreateIntent (cfg : Config) (vai : VoteAccountInfo) : TxIntent :=
  ⟨.splitWithSeed cfg.source_stake_address cfg.authorized_staker cfg.bonus_stake_amount
      (bonusAddress cfg vai.vote_pubkey) cfg.authorized_staker (bonusSeed vai.vote_pubkey),
   vai.node_pubkey⟩

/- ## Stake policy engine (the per-validator loop of main) -/

/-- The existence/balance check for one stake account: a successful
lookup with the wrong balance is a fatal inconsistency (process exit,
modelled as an error); a successful lookup with the right balance needs
nothing; a failed lookup falls to the else branch of the if-let and
yields a create transaction plus its funding requirement. -/
def checkStakeAccount (accounts : Pubkey → Except String Account) (address : Pubkey)
    (expected : Lamports) (createIntent : TxIntent) :
    Except String (Lamports × List TxIntent) :=
  match get_stake_account (accounts address) address with
  | .ok (balance, _) =>
    if balance ≠ expected then
      .error ("Unexpected balance in stake account " ++ address)
    else .ok (0, [])
  | .error _ => .ok (expected, [createIntent])

/-- Per-validator policy output: funding requirement, create and
delegate/deactivate transactions, and the metrics report (none when the
source emits no datapoint, some ok-flag otherwise). -/
structure ValidatorOutput where
  required : Lamports
  creates : List TxIntent
  delegates : List TxIntent
  report : Option Bool
deriving Repr, DecidableEq

/-- The u64 expression absolute_slot - 256 as the source computes it:
unchecked u64 subtraction, which wraps modulo 2 to the 64. -/
def wrapSub256 (s : Nat) : Nat :=
  (s + (18446744073709551616 - 256)) % 18446744073709551616

/-- The liveness branch of the loop body, after both account checks:
a validator whose root slot is within 256 slots of the current slot is
current (delegate baseline, then delegate bonus when in the quality set
else deactivate bonus; metrics ok unless dry run); otherwise it is fully
destaked when the root slot is more than the grace distance behind
(saturating subtraction; deactivate baseline and bonus, metrics not-ok
unconditionally); otherwise it is in grace (no action, metrics ok unless
dry run). -/
def livenessStep (cfg : Config) (absolute_slot : Slot) (quality : List Pubkey)
    (vai : VoteAccountInfo) (required : Lamports) (creates : List TxIntent)
    (baddr xaddr : Pubkey) : ValidatorOutput :=
  if vai.root_slot > wrapSub256 absolute_slot then
    ⟨required, creates,
     ⟨.delegateStake baddr cfg.authorized_staker vai.vote_pubkey, vai.node_pubkey⟩ ::
       (if quality.contains vai.node_pubkey then
          [⟨.delegateStake xaddr cfg.authorized_staker vai.vote_pubkey, vai.node_pubkey⟩]
        else
          [⟨.deactivateStake xaddr cfg.authorized_staker, vai.node_pubkey⟩]),
     if cfg.dry_run then none else some true⟩
  else if vai.root_slot < absolute_slot - cfg.delinquent_grace_slot_distance then
    ⟨required, creates,
     [⟨.deactivateStake baddr cfg.authorized_staker, vai.node_pubkey⟩,
      ⟨.deactivateStake xaddr cfg.authorized_staker, vai.node_pubkey⟩],
     some false⟩
  else
    ⟨required, creates, [], if cfg.dry_run then none else some true⟩

/-- One iteration of the whitelisted-validator loop of main: check the
baseline account, then the bonus account (each can abort the run), then
take the liveness branch. -/
def processValidator (cfg : Config) (absolute_slot : Slot) (quality : List Pubkey)
    (accounts : Pubkey → Except String Account) (vai : VoteAccountInfo) :
    Except String ValidatorOutput :=
  let baddr := baselineAddress cfg vai.vote_pubkey
  let xaddr := bonusAddress cfg vai.vote_pubkey
  match checkStakeAccount accounts baddr cfg.baseline_stake_amount (baselineCreateIntent cfg vai) with
  | .error e => .error e
  | .ok (breq, bcre) =>
    match checkStakeAccount accounts xaddr cfg.bonus_stake_amount (bonusCreateIntent cfg vai) with
    | .error e => .error e
    | .ok (xreq, xcre) =>
      .ok (livenessStep cfg absolute_slot quality vai (breq + xreq) (bcre ++ xcre) baddr xaddr)

/-- The whole-run policy output: accumulated funding requirement and the
two transaction batches, in loop order. -/
structure PolicyOutput where
  required : Lamports
  creates : List TxIntent
  delegates : List TxIntent
deriving Repr, DecidableEq

/-- The whitelisted-validator loop of main: validators processed in
vote-account listing order, accumulating the funding requirement and the
create and delegate batches; the first fatal check aborts everything. -/
def runPolicy (cfg : Config) (absolute_slot : Slot) (quality : List Pubkey)
    (accounts : Pubkey → Except String Account) :
    List VoteAccountInfo → Except String PolicyOutput
  | [] => .ok ⟨0, [], []⟩
  | vai :: rest =>
    match processValidator cfg absolute_slot quality accounts vai with
    | .error e => .error e
    | .ok o =>
      match runPolicy cfg absolute_slot quality accounts rest with
      | .error e => .error e
      | .ok os => .ok ⟨o.required + os.required, o.creates ++ os.creates, o.delegates ++ os.delegates⟩

/-- Per-validator outputs in order, with the same first-error-aborts
behaviour as the loop. -/
def processAll (cfg : Config) (absolute_slot : Slot) (quality : List Pubkey)
    (accounts : Pubkey → Except String Account) :
    List VoteAccountInfo → Except String (List ValidatorOutput)
  | [] => .ok []
  | vai :: rest =>
    match processValidator cfg absolute_slot quality accounts vai with
    | .error e => .error e
    | .ok o =>
      match processAll cfg absolute_slot quality accounts rest with
      | .error e => .error e
      | .ok os => .ok (o :: os)

/-- The vote-account selection of main: current then delinquent vote
accounts, keeping those whose node pubkey is in the whitelist, in
listing order. -/
def filterWhitelist (whitelist : List Pubkey) (current delinquent : List VoteAccountInfo) :
    List VoteAccountInfo :=
  (current ++ delinquent).filter (fun vai => whitelist.contains vai.node_pubkey)

/-- The ordering the spec asserts, stated from its words: successive
elements of a pubkey sequence must have non-decreasing positions in the
whitelist. -/
def orderedByIndex (whitelist : List Pubkey) : List Pubkey → Bool
  | [] => true
  | [_] => true
  | a :: b :: rest =>
    Nat.ble (whitelist.indexOf a) (whitelist.indexOf b) && orderedByIndex whitelist (b :: rest)

/- ## Transaction execution pipeline (transact and the tail of main) -/

/-- What one signature status report carries, as the code reads it:
whether confirmations is None (finalized) and whether err is None
(executed without error). -/
structure TxStatusInfo where
  confirmations_none : Bool
  err_none : Bool
deriving Repr, DecidableEq

/-- One observed polling cycle: the blockhash validity check can fail or
report expiry; when it passes, the batched status fetch can fail or
return one optional status per pending transaction. -/
inductive PollCycle
  | failCheck (e : String)
  | expired
  | failStatuses (e : String)
  | statuses (sts : List (Option TxStatusInfo))
deriving Repr, DecidableEq

/-- The transactions one status cycle finalizes: those whose status is
present with no remaining confirmations, successful when no execution
error is attached. -/
def newlyFinalized {α : Type} (pending : List (Nat × α)) (sts : List (Option TxStatusInfo)) :
    List (Bool × α) :=
  (pending.zip sts).filterMap fun q =>
    match q.2 with
    | some st => if st.confirmations_none then some (st.err_none, q.1.2) else none
    | none => none

/-- The transactions one status cycle leaves pending. -/
def stillPending {α : Type} (pending : List (Nat × α)) (sts : List (Option TxStatusInfo)) :
    List (Nat × α) :=
  (pending.zip sts).filterMap fun q =>
    match q.2 with
    | some st => if st.confirmations_none then none else some q.1
    | none => some q.1

/-- The polling loop of transact, driven by the list of observed cycles:
it stops as soon as nothing is pending; a blockhash-check or status-fetch
failure propagates; blockhash expiry finalizes every pending transaction
as a failure and stops; a status answer finalizes what it can and loops.
The cycle list exhausting while transactions are still pending has no
counterpart in the source (the loop would keep polling), modelled as
none. -/
def pollLoop {α : Type} : List PollCycle → List (Nat × α) → List (Bool × α) →
    Option (Except String (List (Bool × α)))
  | _, [], finalized => some (.ok finalized)
  | [], _ :: _, _ => none
  | .failCheck e :: _, _ :: _, _ => some (.error e)
  | .expired :: _, p :: ps, finalized =>
    some (.ok (finalized ++ (p :: ps).map fun q => (false, q.2)))
  | .failStatuses e :: _, _ :: _, _ => some (.error e)
  | .statuses sts :: rest, p :: ps, finalized =>
    pollLoop rest (stillPending (p :: ps) sts) (finalized ++ newlyFinalized (p :: ps) sts)

/-- The chain answers transact consumes, supplied up front: the staker
balance, the fee schedule, per-transaction submission results, and the
poll-cycle observations. -/
structure TransactOracle (α : Type) where
  staker_balance : Lamports
  fee : α → Lamports
  send : α → Except String Nat
  cycles : List PollCycle

/-- transact: compute the total fee and reject an underfunded staker;
reject a non-empty batch in dry-run mode (both through the error
channel, as the source does); otherwise submit every transaction (an
immediate send failure finalizes it as failed, success leaves it
pending) and poll to completion.  The second component is the submission
log: the transactions for which a send was attempted. -/
def transact {α : Type} (o : TransactOracle α) (dry_run : Bool) (transactions : List α) :
    Option (Except String (List (Bool × α))) × List α :=
  let required_fee := transactions.foldl (fun fee t => fee + o.fee t) 0
  if required_fee > o.staker_balance then
    (some (.error "Authorized staker has insufficient funds"), [])
  else if dry_run && !transactions.isEmpty then
    (some (.error "--confirm flag not provided, exiting before sending transactions"), [])
  else
    let sends := transactions.foldl
      (fun (acc : List (Nat × α) × List (Bool × α)) t =>
        match o.send t with
        | .ok sig => (acc.1 ++ [(sig, t)], acc.2)
        | .error _ => (acc.1, acc.2 ++ [(false, t)]))
      ([], [])
    (pollLoop o.cycles sends.1 sends.2, transactions)

/-- What the tail of main observably does: which transactions of each
batch were submitted, and how the run ended (none when a poll oracle ran
out, error for any abort, ok for a clean finish). -/
structure BatchOutcome (α : Type) where
  createSubmitted : List α
  delegateSubmitted : List α
  result : Option (Except String Unit)
deriving Repr, DecidableEq

/-- The delegate-batch stage at the end of main: run transact on the
delegate batch and report each outcome (failures there do not abort). -/
def runDelegatePhase {α : Type} (o : TransactOracle α) (dry_run : Bool) (delegates : List α)
    (createSubmitted : List α) : BatchOutcome α :=
  match transact o dry_run delegates with
  | (none, dsub) => ⟨createSubmitted, dsub, none⟩
  | (some (.error e), dsub) => ⟨createSubmitted, dsub, some (.error e)⟩
  | (some (.ok _), dsub) => ⟨createSubmitted, dsub, some (.ok ())⟩

/-- The tail of main after the policy loop: when creates exist, check
the funding precondition (balance shortfall exits before anything is
submitted), run the create batch, abort if any create transaction
finalized as a failure, and only then run the delegate batch. -/
def mainTail {α : Type} (dry_run : Bool) (source_stake_balance required : Lamports)
    (creates delegates : List α) (co dor : TransactOracle α) : BatchOutcome α :=
  if creates.isEmpty then
    runDelegatePhase dor dry_run delegates []
  else if source_stake_balance < required then
    ⟨[], [], some (.error "Source stake account has insufficient balance")⟩
  else
    match transact co dry_run creates with
    | (none, csub) => ⟨csub, [], none⟩
    | (some (.error e), csub) => ⟨csub, [], some (.error e)⟩
    | (some (.ok confirmations), csub) =>
      if confirmations.any (fun c => !c.1) then
        ⟨csub, [], some (.error "Failed to create one or more stake accounts.  Unable to continue")⟩
      else
        runDelegatePhase dor dry_run delegates csub

/-- The policy loop composed with the tail of main: a policy abort (a
balance inconsistency) ends the run before anything is submitted. -/
def mainStakePhase (cfg : Config) (absolute_slot : Slot) (quality : List Pubkey)
    (accounts : Pubkey → Except String Account) (vais : List VoteAccountInfo)
    (source_stake_balance : Lamports) (co dor : TransactOracle TxIntent) :
    BatchOutcome TxIntent :=
  match runPolicy cfg absolute_slot quality accounts vais with
  | .error e => ⟨[], [], some (.error e)⟩
  | .ok out => mainTail cfg.dry_run source_stake_balance out.required out.creates out.delegates co dor

/- ## The chain reads at the head of main -/

/-- The fields of the epoch info answer that main reads: the epoch
number and the current absolute slot. -/
structure EpochInfo where
  epoch : Nat
  absolute_slot : Slot
deriving Repr, DecidableEq

/-- Modelled from the spec: the epoch schedule object comes from the
chain client (solana_sdk, not in src/) and only enters through
get_first_slot_in_epoch and get_last_slot_in_epoch; modelled as the
induced mapping from an epoch number to the (first, last) slot pair of
that epoch. -/
abbrev EpochSchedule := Nat → Slot × Slot

/-- The oracle answers of the chain reads at the head of main, in the
order the source performs them. -/
structure PreludeReads where
  epoch_info : Except String EpochInfo
  source_account : Except String Account
  epoch_schedule : Except String EpochSchedule
  minimum_ledger_slot : Except String Slot
  confirmed_blocks : Except String (List Slot)
  leader_schedule : Except String (List (Pubkey × List Nat))
  vote_accounts : Except String (List VoteAccountInfo × List VoteAccountInfo)

/-- classify_block_producers with its three chain reads explicit, in
source order: the minimum ledger slot is read first (a failure
propagates), then the history check, then the confirmed blocks and the
leader schedule (each propagating failure), then the pure
classification over the clamped window. -/
def classify_block_producers_reads (pct : Nat) (minl_r : Except String Slot)
    (conf_r : Except String (List Slot)) (sched_r : Except String (List (Pubkey × List Nat)))
    (first_slot_in_epoch last_slot_in_epoch : Slot) :
    Except String (List Pubkey × List Pubkey) :=
  match minl_r with
  | .error e => .error e
  | .ok minimum_ledger_slot =>
    if minimum_ledger_slot ≥ last_slot_in_epoch then
      .error "Minimum ledger slot is newer than the last epoch"
    else
      match conf_r with
      | .error e => .error e
      | .ok confirmed =>
        match sched_r with
        | .error e => .error e
        | .ok sched =>
          classify_block_producers pct minimum_ledger_slot confirmed sched
            first_slot_in_epoch last_slot_in_epoch

/-- The head of main (the part before the per-validator loop): the epoch
info read, the source stake account check through get_stake_account (a
non-initialized state is a fatal exit), the epoch schedule read, the
block-producer classification with its reads, and the vote-account
listing filtered by the whitelist.  Every read failure is propagated by
the question-mark operator with no retry; an error return here is the
run aborting. -/
def mainPrelude (cfg : Config) (whitelist : List Pubkey) (r : PreludeReads) :
    Except String (EpochInfo × Lamports × (List Pubkey × List Pubkey) × List VoteAccountInfo) :=
  match r.epoch_info with
  | .error e => .error e
  | .ok epoch_info =>
    match get_stake_account r.source_account cfg.source_stake_address with
    | .error e => .error e
    | .ok (source_stake_balance, source_stake_state) =>
      if source_stake_state ≠ .initialized then
        .error "Source stake account is not in the initialized state"
      else
        match r.epoch_schedule with
        | .error e => .error e
        | .ok epoch_schedule =>
          let last_epoch := epoch_info.epoch - 1
          let first_slot_in_epoch := (epoch_schedule last_epoch).1
          let last_slot_in_epoch := (epoch_schedule last_epoch).2
          match classify_block_producers_reads cfg.quality_block_producer_percentage
              r.minimum_ledger_slot r.confirmed_blocks r.leader_schedule
              first_slot_in_epoch last_slot_in_epoch with
          | .error e => .error e
          | .ok producers =>
            match r.vote_accounts with
            | .error e => .error e
            | .ok (current, delinquent) =>
              .ok (epoch_info, source_stake_balance, producers,
                   filterWhitelist whitelist current delinquent)

/- ## Concrete instances used by witnesses and counterexamples -/

/-- An oracle under which every gate of transact other than the dry-run
gate passes: ample balance, zero fees, successful sends, no poll cycles
needed. -/
def dryRunOracle : TransactOracle Nat := ⟨1, fun _ => 0, fun _ => .ok 0, []⟩

/-- An oracle whose sends all fail immediately, finalizing each
transaction as a failure with no polling. -/
def failSendOracle : TransactOracle Nat := ⟨5, fun _ => 0, fun _ => .error "send failed", []⟩

/-- An oracle whose sends succeed, with no poll cycles. -/
def okSendOracle : TransactOracle Nat := ⟨5, fun _ => 0, fun _ => .ok 3, []⟩

/-- An oracle over transaction intents for instantiating the tail of
main. -/
def intentOracle : TransactOracle TxIntent := ⟨0, fun _ => 0, fun _ => .ok 0, []⟩

/-- A small concrete configuration (not in dry-run mode): baseline
amount 100, bonus amount 200, threshold 75, grace distance 21600. -/
def witnessCfg : Config := ⟨"SRC", "AUTH", false, 100, 200, 75, 21600⟩

/-- A validator 300 slots behind current slot 1000000, the in-grace
boundary scenario of the spec. -/
def witnessVai : VoteAccountInfo := ⟨"VOTE", "NODE", 999700⟩

/-- An account oracle on which every lookup fails. -/
def failingAccounts : Pubkey → Except String Account := fun _ => .error "connection refused"

/-- An account oracle where the baseline stake account of witnessVai
exists with balance 50 instead of the configured 100. -/
def mismatchAccounts : Pubkey → Except String Account := fun a =>
  if a = "AUTH:VOTE" then .ok ⟨50, stakeProgramId, .ok .initialized⟩ else .error "absent"

/-- The per-validator output of processValidator for witnessVai against
witnessCfg when both lookups fail and the validator is in grace. -/
def witnessGraceOut : ValidatorOutput :=
  ⟨300, [baselineCreateIntent witnessCfg witnessVai, bonusCreateIntent witnessCfg witnessVai],
   [], some true⟩

/-- An account held by a program other than the stake program. -/
def wrongOwnerAccount : Account := ⟨10, "OtherProgram1111", .ok .initialized⟩

/-- A stake-program account whose state fails to decode. -/
def undecodableAccount : Account := ⟨10, stakeProgramId, .error "truncated"⟩

/-- Prelude reads where the epoch-info fetch fails and every other read
succeeds. -/
def epochFailReads : PreludeReads :=
  ⟨.error "epoch info unavailable", .ok ⟨1000, stakeProgramId, .ok .initialized⟩,
   .ok (fun _ => (0, 100)), .ok 0, .ok [], .ok [], .ok ([], [])⟩

/-- A current whitelisted validator with identity A. -/
def vaiA : VoteAccountInfo := ⟨"VA", "A", 900⟩

/-- A current whitelisted validator with identity B. -/
def vaiB : VoteAccountInfo := ⟨"VB", "B", 900⟩

/-- The policy output for the vote listing [vaiB, vaiA] at slot 1000
with failing lookups: every account is created and both validators are
current, B first. -/
def orderOut : PolicyOutput :=
  ⟨600,
   [baselineCreateIntent witnessCfg vaiB, bonusCreateIntent witnessCfg vaiB,
    baselineCreateIntent witnessCfg vaiA, bonusCreateIntent witnessCfg vaiA],
   [⟨.delegateStake "AUTH:VB" "AUTH" "VB", "B"⟩,
    ⟨.deactivateStake "AUTH:A\x7bVB" "AUTH", "B"⟩,
    ⟨.delegateStake "AUTH:VA" "AUTH" "VA", "A"⟩,
    ⟨.deactivateStake "AUTH:A\x7bVA" "AUTH", "A"⟩]⟩

/- ## Classifier lemmas -/

theorem classifyWindow_aux (fsie fs : Slot) (conf : List Slot) (pct : Nat)
    (sched : List (Pubkey × List Nat)) (acc : List Pubkey × List Pubkey) :
    sched.foldl (classifyStep fsie fs conf pct) acc =
      (acc.1 ++ sched.filterMap (qualityOf fsie fs conf pct),
       acc.2 ++ sched.filterMap (poorOf fsie fs conf pct)) := by
  induction sched generalizing acc with
  | nil => simp
  | cons e rest ih =>
    simp only [List.foldl_cons, List.filterMap_cons]
    rw [ih]
    unfold classifyStep qualityOf poorOf
    by_cases hc : 0 < countAssigned fsie fs e.2
    · by_cases hq : pct < countProduced fsie fs conf e.2 * 100 / countAssigned fsie fs e.2
      · simp [hc, hq]
      · simp [hc, hq]
    · simp [hc]

theorem classifyWindow_eq (fsie fs : Slot) (conf : List Slot) (pct : Nat)
    (sched : List (Pubkey × List Nat)) :
    classifyWindow fsie fs conf pct sched =
      (sched.filterMap (qualityOf fsie fs conf pct),
       sched.filterMap (poorOf fsie fs conf pct)) := by
  unfold classifyWindow
  rw [classifyWindow_aux]
  simp

/-- With nodup keys, two entries of the schedule that share a key share
their slot list. -/
theorem keys_nodup_entry_unique {l : List (Pubkey × List Nat)} {p : Pubkey} {a b : List Nat}
    (hnd : (l.map Prod.fst).Nodup) (h1 : (p, a) ∈ l) (h2 : (p, b) ∈ l) : a = b := by
  induction l with
  | nil => cases h1
  | cons e rest ih =>
    rcases List.mem_cons.mp h1 with h1e | h1r <;> rcases List.mem_cons.mp h2 with h2e | h2r
    · exact congrArg Prod.snd (h1e.trans h2e.symm)
    · subst h1e
      simp only [List.map_cons, List.nodup_cons] at hnd
      exact absurd (List.mem_map.mpr ⟨(p, b), h2r, rfl⟩) hnd.1
    · subst h2e
      simp only [List.map_cons, List.nodup_cons] at hnd
      exact absurd (List.mem_map.mpr ⟨(p, a), h1r, rfl⟩) hnd.1
    · simp only [List.map_cons, List.nodup_cons] at hnd
      exact ih hnd.2 h1r h2r

theorem qualityOf_eq_some {fsie fs : Slot} {conf : List Slot} {pct : Nat}
    {e : Pubkey × List Nat} {x : Pubkey} :
    qualityOf fsie fs conf pct e = some x ↔
      x = e.1 ∧ 0 < countAssigned fsie fs e.2 ∧
        pct < countProduced fsie fs conf e.2 * 100 / countAssigned fsie fs e.2 := by
  unfold qualityOf
  dsimp only
  split_ifs with hc hq
  · simp [hc, hq, eq_comm]
  · simp [hq]
  · simp [hc]

theorem poorOf_eq_some {fsie fs : Slot} {conf : List Slot} {pct : Nat}
    {e : Pubkey × List Nat} {x : Pubkey} :
    poorOf fsie fs conf pct e = some x ↔
      x = e.1 ∧ 0 < countAssigned fsie fs e.2 ∧
        ¬ pct < countProduced fsie fs conf e.2 * 100 / countAssigned fsie fs e.2 := by
  unfold poorOf
  dsimp only
  split_ifs with hc hq
  · simp [hq]
  · simp [hc, hq, eq_comm]
  · simp [hc]

/-- Claim C3: for every validator in the leader schedule, zero assigned
slots at or after the clamped window start keeps it out of both output
sets; otherwise it is in the quality set exactly when the floor ratio
produced * 100 / assigned strictly exceeds the threshold and in the poor
set exactly otherwise; and the two sets are disjoint. -/
theorem block_producer_classification (fsie fs : Slot) (conf : List Slot) (pct : Nat)
    (sched : List (Pubkey × List Nat)) (p : Pubkey) (rels : List Nat)
    (hnd : (sched.map Prod.fst).Nodup) (hmem : (p, rels) ∈ sched) :
    (countAssigned fsie fs rels = 0 →
      p ∉ (classifyWindow fsie fs conf pct sched).1 ∧
      p ∉ (classifyWindow fsie fs conf pct sched).2) ∧
    (0 < countAssigned fsie fs rels →
      (p ∈ (classifyWindow fsie fs conf pct sched).1 ↔
        pct < countProduced fsie fs conf rels * 100 / countAssigned fsie fs rels) ∧
      (p ∈ (classifyWindow fsie fs conf pct sched).2 ↔
        ¬ pct < countProduced fsie fs conf rels * 100 / countAssigned fsie fs rels)) ∧
    (∀ x, x ∈ (classifyWindow fsie fs conf pct sched).1 →
      x ∉ (classifyWindow fsie fs conf pct sched).2) := by
  rw [classifyWindow_eq]
  simp only [List.mem_filterMap]
  refine ⟨?_, ?_, ?_⟩
  · intro hzero
    constructor
    · rintro ⟨e, he, hq⟩
      rcases qualityOf_eq_some.mp hq with ⟨hx, hc, _⟩
      subst hx
      have : e.2 = rels := keys_nodup_entry_unique hnd (by simpa using he) hmem
      rw [this] at hc
      omega
    · rintro ⟨e, he, hq⟩
      rcases poorOf_eq_some.mp hq with ⟨hx, hc, _⟩
      subst hx
      have : e.2 = rels := keys_nodup_entry_unique hnd (by simpa using he) hmem
      rw [this] at hc
      omega
  · intro hpos
    constructor
    · constructor
      · rintro ⟨e, he, hq⟩
        rcases qualityOf_eq_some.mp hq with ⟨hx, _, hr⟩
        subst hx
        have : e.2 = rels := keys_nodup_entry_unique hnd (by simpa using he) hmem
        rwa [this] at hr
      · intro hr
        exact ⟨(p, rels), hmem, qualityOf_eq_some.mpr ⟨rfl, hpos, hr⟩⟩
    · constructor
      · rintro ⟨e, he, hq⟩
        rcases poorOf_eq_some.mp hq with ⟨hx, _, hr⟩
        subst hx
        have : e.2 = rels := keys_nodup_entry_unique hnd (by simpa using he) hmem
        rwa [this] at hr
      · intro hr
        exact ⟨(p, rels), hmem, poorOf_eq_some.mpr ⟨rfl, hpos, hr⟩⟩
  · rintro x ⟨e, he, hq⟩ ⟨f, hf, hp⟩
    rcases qualityOf_eq_some.mp hq with ⟨hx, hc1, hr1⟩
    rcases poorOf_eq_some.mp hp with ⟨hy, hc2, hr2⟩
    subst hx
    have : e.2 = f.2 := by
      apply keys_nodup_entry_unique hnd (by simpa using he)
      rw [hy]
      simpa using hf
    rw [← this] at hr2
    exact hr2 hr1

/-- Witness for C3 at the boundary inputs of the spec: one validator
with four assigned slots from slot 0; three produced gives ratio 75 and
the poor set, so membership in the quality set is false at threshold 75. -/
theorem block_producer_classification_witness :
    ((List.map Prod.fst [(("v" : Pubkey), [0, 1, 2, 3])]).Nodup ∧
      (("v" : Pubkey), [0, 1, 2, 3]) ∈ [(("v" : Pubkey), [0, 1, 2, 3])]) ∧
    ((countAssigned 0 0 [0, 1, 2, 3] = 0 →
      ("v" : Pubkey) ∉ (classifyWindow 0 0 [0, 1, 2] 75 [("v", [0, 1, 2, 3])]).1 ∧
      ("v" : Pubkey) ∉ (classifyWindow 0 0 [0, 1, 2] 75 [("v", [0, 1, 2, 3])]).2) ∧
    (0 < countAssigned 0 0 [0, 1, 2, 3] →
      (("v" : Pubkey) ∈ (classifyWindow 0 0 [0, 1, 2] 75 [("v", [0, 1, 2, 3])]).1 ↔
        75 < countProduced 0 0 [0, 1, 2] [0, 1, 2, 3] * 100 / countAssigned 0 0 [0, 1, 2, 3]) ∧
      (("v" : Pubkey) ∈ (classifyWindow 0 0 [0, 1, 2] 75 [("v", [0, 1, 2, 3])]).2 ↔
        ¬ 75 < countProduced 0 0 [0, 1, 2] [0, 1, 2, 3] * 100 / countAssigned 0 0 [0, 1, 2, 3])) ∧
    (∀ x, x ∈ (classifyWindow 0 0 [0, 1, 2] 75 [("v", [0, 1, 2, 3])]).1 →
      x ∉ (classifyWindow 0 0 [0, 1, 2] 75 [("v", [0, 1, 2, 3])]).2)) :=
  ⟨⟨by decide, by decide⟩,
   block_producer_classification 0 0 [0, 1, 2] 75 [("v", [0, 1, 2, 3])] "v" [0, 1, 2, 3]
     (by decide) (by decide)⟩

/-- Claim C10: the classifier fails with the history-unavailable error
exactly when the clamped window start max(first epoch slot, minimum
retained slot) reaches the last epoch slot, and otherwise classifies
over the clamped window.  The epoch bounds come from the epoch schedule,
so the first slot is below the last. -/
theorem classifier_history_unavailable (pct minl : Nat) (conf : List Slot)
    (sched : List (Pubkey × List Nat)) (fsie lsie : Slot) (h : fsie < lsie) :
    ((∃ e, classify_block_producers pct minl conf sched fsie lsie = .error e) ↔
      max fsie minl ≥ lsie) ∧
    (max fsie minl < lsie →
      classify_block_producers pct minl conf sched fsie lsie =
        .ok (classifyWindow fsie (max fsie minl) conf pct sched)) := by
  have hclamp : (if minl > fsie then minl else fsie) = max fsie minl := by
    rw [Nat.max_def]
    split_ifs <;> omega
  unfold classify_block_producers
  by_cases hge : minl ≥ lsie
  · rw [if_pos hge]
    refine ⟨⟨fun _ => le_trans hge (Nat.le_max_right fsie minl), fun _ => ⟨_, rfl⟩⟩,
      fun hlt =>
        (Nat.lt_irrefl _
          (Nat.lt_of_le_of_lt (le_trans hge (Nat.le_max_right fsie minl)) hlt)).elim⟩
  · rw [if_neg hge]
    have hminl : minl < lsie := by omega
    have hmaxlt : max fsie minl < lsie := Nat.max_lt.mpr ⟨h, hminl⟩
    constructor
    · constructor
      · rintro ⟨e, he⟩
        exact absurd he (by simp)
      · intro hmax
        exact (Nat.lt_irrefl _ (Nat.lt_of_le_of_lt hmax hmaxlt)).elim
    · intro _
      rw [hclamp]

/-- Witness for C10: epoch slots 0 to 10 with minimum retained slot 5:
no failure, and the window is clamped to start at 5. -/
theorem classifier_history_unavailable_witness :
    (0 : Slot) < 10 ∧
    (((∃ e, classify_block_producers 75 5 [] [] 0 10 = .error e) ↔ max 0 5 ≥ 10) ∧
    (max 0 5 < 10 →
      classify_block_producers 75 5 [] [] 0 10 = .ok (classifyWindow 0 (max 0 5) [] 75 []))) :=
  ⟨by decide, classifier_history_unavailable 75 5 [] [] 0 10 (by decide)⟩

/- ## Execution pipeline lemmas -/

/-- Claim C4: when the blockhash check of a polling cycle reports
expiry, every transaction still pending at that moment finalizes as a
failure, transactions finalized earlier keep their recorded outcome, and
polling stops at once: the result does not depend on any later cycle. -/
theorem pollLoop_blockhash_expired {α : Type} (rest : List PollCycle)
    (pending : List (Nat × α)) (finalized : List (Bool × α)) :
    pollLoop (.expired :: rest) pending finalized =
      some (.ok (finalized ++ pending.map fun q => (false, q.2))) := by
  cases pending with
  | nil => simp [pollLoop]
  | cons p ps => rfl

/-- Claim C7 counterexample: for a non-empty batch in simulate mode the
source answers through the error channel (it literally returns Err, which
the caller propagates into a nonzero exit), so the review-required signal
is classified as an error, against the claim that it never is. -/
theorem dry_run_is_error_counterexample :
    (transact dryRunOracle true [0]).1 =
      some (.error "--confirm flag not provided, exiting before sending transactions") := by
  rfl

/-- Claim C7 as amended: a non-empty batch under simulate mode (with the
fee gate passing) stops before any submission and returns the
review-required message, but through the error channel; an empty batch
under any mode finalizes as an empty outcome collection with nothing
submitted and is never an error. -/
theorem dry_run_short_circuit {α : Type} (o oe : TransactOracle α) (d : Bool) (t : α)
    (ts : List α)
    (hfee : (t :: ts).foldl (fun fee t => fee + o.fee t) 0 ≤ o.staker_balance) :
    transact oe d ([] : List α) = (some (.ok []), []) ∧
    transact o true (t :: ts) =
      (some (.error "--confirm flag not provided, exiting before sending transactions"), []) := by
  constructor
  · unfold transact
    simp [pollLoop]
  · unfold transact
    dsimp only
    rw [if_neg (Nat.not_lt.mpr hfee)]
    simp

/-- Witness for C7 as amended, at the concrete counterexample oracle. -/
theorem dry_run_short_circuit_witness :
    ([0].foldl (fun fee t => fee + dryRunOracle.fee t) 0 ≤ dryRunOracle.staker_balance) ∧
    (transact dryRunOracle false ([] : List Nat) = (some (.ok []), []) ∧
     transact dryRunOracle true [0] =
       (some (.error "--confirm flag not provided, exiting before sending transactions"), [])) :=
  ⟨by decide, dry_run_short_circuit dryRunOracle dryRunOracle false 0 [] (by decide)⟩

/-- Claim C1: with a non-empty create batch that passed the funding
check, when the create batch finalizes with at least one failed
transaction the run aborts there: the outcome is the create-failure
abort and the delegate batch has zero submitted transactions.  The
delegate stage of mainTail is only reachable once every create outcome
is finalized. -/
theorem create_failure_gates_delegates {α : Type} (d : Bool) (bal req : Lamports)
    (creates delegates : List α) (co dor : TransactOracle α)
    (confs : List (Bool × α)) (csub : List α) (m : α)
    (hne : creates ≠ [])
    (hbal : ¬ bal < req)
    (htr : transact co d creates = (some (.ok confs), csub))
    (hfail : (false, m) ∈ confs) :
    mainTail d bal req creates delegates co dor =
      ⟨csub, [],
       some (.error "Failed to create one or more stake accounts.  Unable to continue")⟩ := by
  have hany : confs.any (fun c => !c.1) = true :=
    List.any_eq_true.mpr ⟨(false, m), hfail, rfl⟩
  unfold mainTail
  rw [if_neg (by simp [List.isEmpty_iff, hne]), if_neg hbal, htr]
  simp [hany]

/-- Witness for C1: one create transaction whose send fails, so the
create batch finalizes with a failure; the delegate batch is never
submitted. -/
theorem create_failure_gates_delegates_witness :
    (([7] : List Nat) ≠ [] ∧ ¬ (5 : Lamports) < 0 ∧
     transact failSendOracle false [7] = (some (.ok [(false, 7)]), [7]) ∧
     ((false : Bool), (7 : Nat)) ∈ [((false : Bool), (7 : Nat))]) ∧
    mainTail false 5 0 [7] [8] failSendOracle okSendOracle =
      ⟨[7], [],
       some (.error "Failed to create one or more stake accounts.  Unable to continue")⟩ :=
  ⟨⟨by decide, by decide, by decide, by decide⟩,
   create_failure_gates_delegates false 5 0 [7] [8] failSendOracle okSendOracle
     [(false, 7)] [7] 7 (by decide) (by decide) (by decide) (by decide)⟩

/-- Claim C6: with a non-empty create batch, a funding requirement above
the source stake balance aborts the run with zero transactions submitted
in either batch, while a requirement at or below the balance proceeds to
run the create batch (its submission log is exactly the one transact
produces for the create transactions). -/
theorem funding_precondition {α : Type} (d : Bool) (bal req : Lamports)
    (creates delegates : List α) (co dor : TransactOracle α)
    (hne : creates ≠ []) :
    (bal < req →
      mainTail d bal req creates delegates co dor =
        ⟨[], [], some (.error "Source stake account has insufficient balance")⟩) ∧
    (req ≤ bal →
      (mainTail d bal req creates delegates co dor).createSubmitted =
        (transact co d creates).2) := by
  unfold mainTail
  rw [if_neg (by simp [List.isEmpty_iff, hne])]
  constructor
  · intro hlt
    rw [if_pos hlt]
  · intro hle
    rw [if_neg (Nat.not_lt.mpr hle)]
    rcases htr : transact co d creates with ⟨r, csub⟩
    rcases r with _ | r
    · simp
    · rcases r with e | confs
      · simp
      · by_cases hany : confs.any (fun c => !c.1) = true
        · simp [hany]
        · simp only [Bool.not_eq_true] at hany
          simp only [hany, Bool.false_eq_true, if_false]
          unfold runDelegatePhase
          rcases transact dor d delegates with ⟨rd, dsub⟩
          rcases rd with _ | rd
          · simp
          · rcases rd with ed | cd <;> simp

/-- Witness for C6 at the spec scenario: source balance 1000, two create
transactions requiring 1200 in total. -/
theorem funding_precondition_witness :
    (([1, 2] : List Nat) ≠ []) ∧
    ((1000 < 1200 →
      mainTail false 1000 1200 [1, 2] [3] okSendOracle okSendOracle =
        ⟨[], [], some (.error "Source stake account has insufficient balance")⟩) ∧
    (1200 ≤ 1000 →
      (mainTail false 1000 1200 [1, 2] [3] okSendOracle okSendOracle).createSubmitted =
        (transact okSendOracle false [1, 2]).2)) :=
  ⟨by decide, funding_precondition false 1000 1200 [1, 2] [3] okSendOracle okSendOracle (by decide)⟩

/- ## Policy engine lemmas -/

/-- On slots that fit in u64 and are at least 256, the wrapping u64
subtraction agrees with plain subtraction. -/
theorem wrapSub256_eq {s : Nat} (h1 : 256 ≤ s) (h2 : s < 18446744073709551616) :
    wrapSub256 s = s - 256 := by
  unfold wrapSub256
  omega

/-- A successful processValidator output is a livenessStep output over
the derived addresses, for some funding requirement and create list. -/
theorem processValidator_ok_shape {cfg : Config} {s : Nat} {quality : List Pubkey}
    {accounts : Pubkey → Except String Account} {vai : VoteAccountInfo} {out : ValidatorOutput}
    (hok : processValidator cfg s quality accounts vai = .ok out) :
    ∃ r c, out = livenessStep cfg s quality vai r c
      (baselineAddress cfg vai.vote_pubkey) (bonusAddress cfg vai.vote_pubkey) := by
  unfold processValidator at hok
  dsimp only at hok
  rcases h1 : checkStakeAccount accounts (baselineAddress cfg vai.vote_pubkey)
      cfg.baseline_stake_amount (baselineCreateIntent cfg vai) with e | pr
  · rw [h1] at hok
    cases hok
  · rcases pr with ⟨breq, bcre⟩
    rw [h1] at hok
    rcases h2 : checkStakeAccount accounts (bonusAddress cfg vai.vote_pubkey)
        cfg.bonus_stake_amount (bonusCreateIntent cfg vai) with e | pr2
    · rw [h2] at hok
      cases hok
    · rcases pr2 with ⟨xreq, xcre⟩
      rw [h2] at hok
      exact ⟨breq + xreq, bcre ++ xcre, (Except.ok.inj hok).symm⟩

/-- Claim C2: once the per-validator account checks pass, a validator is
current exactly when its root slot is within 256 slots (fixed constant)
of the current slot, and then gets a baseline delegation plus a bonus
delegation when in the quality set and a bonus deactivation otherwise,
reported ok; a validator more than the grace distance behind (saturating
difference) is fully destaked with both deactivations, reported not-ok;
a validator between the two thresholds gets no stake action and is still
reported ok.  Dry-run is off so the ok reports are emitted. -/
theorem liveness_action_selection (cfg : Config) (s : Nat) (quality : List Pubkey)
    (accounts : Pubkey → Except String Account) (vai : VoteAccountInfo)
    (out : ValidatorOutput)
    (h256 : 256 ≤ s) (hword : s < 18446744073709551616)
    (hdry : cfg.dry_run = false)
    (hok : processValidator cfg s quality accounts vai = .ok out) :
    (vai.root_slot > s - 256 →
      out.delegates =
        ⟨.delegateStake (baselineAddress cfg vai.vote_pubkey) cfg.authorized_staker
            vai.vote_pubkey, vai.node_pubkey⟩ ::
          (if quality.contains vai.node_pubkey then
            [⟨.delegateStake (bonusAddress cfg vai.vote_pubkey) cfg.authorized_staker
                vai.vote_pubkey, vai.node_pubkey⟩]
          else
            [⟨.deactivateStake (bonusAddress cfg vai.vote_pubkey) cfg.authorized_staker,
              vai.node_pubkey⟩]) ∧
      out.report = some true) ∧
    (¬ vai.root_slot > s - 256 →
      vai.root_slot < s - cfg.delinquent_grace_slot_distance →
      out.delegates =
        [⟨.deactivateStake (baselineAddress cfg vai.vote_pubkey) cfg.authorized_staker,
          vai.node_pubkey⟩,
         ⟨.deactivateStake (bonusAddress cfg vai.vote_pubkey) cfg.authorized_staker,
          vai.node_pubkey⟩] ∧
      out.report = some false) ∧
    (¬ vai.root_slot > s - 256 →
      ¬ vai.root_slot < s - cfg.delinquent_grace_slot_distance →
      out.delegates = [] ∧ out.report = some true) := by
  rcases processValidator_ok_shape hok with ⟨r, c, rfl⟩
  unfold livenessStep
  rw [wrapSub256_eq h256 hword, hdry]
  refine ⟨fun hcur => ?_, fun hncur hdel => ?_, fun hncur hndel => ?_⟩
  · rw [if_pos hcur]
    exact ⟨rfl, rfl⟩
  · rw [if_neg hncur, if_pos hdel]
    exact ⟨rfl, rfl⟩
  · rw [if_neg hncur, if_neg hndel]
    exact ⟨rfl, rfl⟩

/-- Witness for C2 at the spec boundary: current slot 1000000 and root
slot 999700, 300 behind, beyond the 256-slot tolerance but within grace:
no stake action and an ok report. -/
theorem liveness_action_selection_witness :
    (256 ≤ 1000000 ∧ 1000000 < 18446744073709551616 ∧ witnessCfg.dry_run = false ∧
     processValidator witnessCfg 1000000 [] failingAccounts witnessVai = .ok witnessGraceOut) ∧
    ((witnessVai.root_slot > 1000000 - 256 →
      witnessGraceOut.delegates =
        ⟨.delegateStake (baselineAddress witnessCfg witnessVai.vote_pubkey)
            witnessCfg.authorized_staker witnessVai.vote_pubkey, witnessVai.node_pubkey⟩ ::
          (if List.contains [] witnessVai.node_pubkey then
            [⟨.delegateStake (bonusAddress witnessCfg witnessVai.vote_pubkey)
                witnessCfg.authorized_staker witnessVai.vote_pubkey, witnessVai.node_pubkey⟩]
          else
            [⟨.deactivateStake (bonusAddress witnessCfg witnessVai.vote_pubkey)
                witnessCfg.authorized_staker, witnessVai.node_pubkey⟩]) ∧
      witnessGraceOut.report = some true) ∧
    (¬ witnessVai.root_slot > 1000000 - 256 →
      witnessVai.root_slot < 1000000 - witnessCfg.delinquent_grace_slot_distance →
      witnessGraceOut.delegates =
        [⟨.deactivateStake (baselineAddress witnessCfg witnessVai.vote_pubkey)
            witnessCfg.authorized_staker, witnessVai.node_pubkey⟩,
         ⟨.deactivateStake (bonusAddress witnessCfg witnessVai.vote_pubkey)
            witnessCfg.authorized_staker, witnessVai.node_pubkey⟩] ∧
      witnessGraceOut.report = some false) ∧
    (¬ witnessVai.root_slot > 1000000 - 256 →
      ¬ witnessVai.root_slot < 1000000 - witnessCfg.delinquent_grace_slot_distance →
      witnessGraceOut.delegates = [] ∧ witnessGraceOut.report = some true)) :=
  ⟨⟨by decide, by decide, by decide, by decide⟩,
   liveness_action_selection witnessCfg 1000000 [] failingAccounts witnessVai witnessGraceOut
     (by decide) (by decide) (by decide) (by decide)⟩

/-- A successful lookup with the wrong balance makes the account check
fatal. -/
theorem checkStakeAccount_mismatch {accounts : Pubkey → Except String Account} {addr : Pubkey}
    {expected bal : Lamports} {st : StakeStateKind} {intent : TxIntent}
    (hlk : get_stake_account (accounts addr) addr = .ok (bal, st))
    (hne : bal ≠ expected) :
    checkStakeAccount accounts addr expected intent =
      .error ("Unexpected balance in stake account " ++ addr) := by
  unfold checkStakeAccount
  rw [hlk]
  simp [hne]

/-- A finished lookup failure (of any kind) makes the account check emit
the create action instead. -/
theorem checkStakeAccount_fetch_error {accounts : Pubkey → Except String Account} {addr : Pubkey}
    {expected : Lamports} {intent : TxIntent} {e : String}
    (hfe : accounts addr = .error e) :
    checkStakeAccount accounts addr expected intent = .ok (expected, [intent]) := by
  unfold checkStakeAccount get_stake_account
  rw [hfe]

/-- A balance mismatch on either derived account of a validator makes
its loop iteration fatal. -/
theorem processValidator_mismatch {cfg : Config} {s : Nat} {quality : List Pubkey}
    {accounts : Pubkey → Except String Account} {vai : VoteAccountInfo}
    (hmis :
      (∃ bal st, get_stake_account (accounts (baselineAddress cfg vai.vote_pubkey))
          (baselineAddress cfg vai.vote_pubkey) = .ok (bal, st) ∧
          bal ≠ cfg.baseline_stake_amount) ∨
      (∃ bal st, get_stake_account (accounts (bonusAddress cfg vai.vote_pubkey))
          (bonusAddress cfg vai.vote_pubkey) = .ok (bal, st) ∧
          bal ≠ cfg.bonus_stake_amount)) :
    ∃ e, processValidator cfg s quality accounts vai = .error e := by
  unfold processValidator
  dsimp only
  rcases hmis with ⟨bal, st, hlk, hne⟩ | ⟨bal, st, hlk, hne⟩
  · rw [checkStakeAccount_mismatch hlk hne]
    exact ⟨_, rfl⟩
  · rcases h1 : checkStakeAccount accounts (baselineAddress cfg vai.vote_pubkey)
        cfg.baseline_stake_amount (baselineCreateIntent cfg vai) with e | pr
    · exact ⟨e, rfl⟩
    · rcases pr with ⟨breq, bcre⟩
      rw [checkStakeAccount_mismatch hlk hne]
      exact ⟨_, rfl⟩

/-- A fatal loop iteration for any listed validator makes the whole
policy loop fatal. -/
theorem runPolicy_error_of_mem {cfg : Config} {s : Nat} {quality : List Pubkey}
    {accounts : Pubkey → Except String Account} {vais : List VoteAccountInfo}
    {vai : VoteAccountInfo}
    (hmem : vai ∈ vais)
    (he : ∃ e, processValidator cfg s quality accounts vai = .error e) :
    ∃ e, runPolicy cfg s quality accounts vais = .error e := by
  induction vais with
  | nil => cases hmem
  | cons v rest ih =>
    rcases List.mem_cons.mp hmem with hv | hv
    · subst hv
      rcases he with ⟨e, he⟩
      unfold runPolicy
      rw [he]
      exact ⟨e, rfl⟩
    · unfold runPolicy
      rcases h1 : processValidator cfg s quality accounts v with e | o
      · exact ⟨e, rfl⟩
      · rcases ih hv with ⟨e, hrest⟩
        rw [hrest]
        exact ⟨e, rfl⟩

/-- Claim C5: when any whitelisted validator has an existing baseline or
bonus stake account whose observed balance differs from the configured
amount, the run aborts fatally with nothing submitted in either batch:
no repair transaction is ever produced. -/
theorem balance_mismatch_aborts (cfg : Config) (s : Nat) (quality : List Pubkey)
    (accounts : Pubkey → Except String Account) (vais : List VoteAccountInfo)
    (vai : VoteAccountInfo) (source_stake_balance : Nat) (co dor : TransactOracle TxIntent)
    (hmem : vai ∈ vais)
    (hmis :
      (∃ bal st, get_stake_account (accounts (baselineAddress cfg vai.vote_pubkey))
          (baselineAddress cfg vai.vote_pubkey) = .ok (bal, st) ∧
          bal ≠ cfg.baseline_stake_amount) ∨
      (∃ bal st, get_stake_account (accounts (bonusAddress cfg vai.vote_pubkey))
          (bonusAddress cfg vai.vote_pubkey) = .ok (bal, st) ∧
          bal ≠ cfg.bonus_stake_amount)) :
    ∃ e, mainStakePhase cfg s quality accounts vais source_stake_balance co dor =
      ⟨[], [], some (.error e)⟩ := by
  rcases runPolicy_error_of_mem hmem (processValidator_mismatch hmis) with ⟨e, hrp⟩
  unfold mainStakePhase
  rw [hrp]
  exact ⟨e, rfl⟩

/-- Witness for C5: the baseline account of witnessVai exists with
balance 50 against a configured 100, so the run aborts with nothing
submitted. -/
theorem balance_mismatch_aborts_witness :
    (witnessVai ∈ [witnessVai] ∧
     ((∃ bal st, get_stake_account (mismatchAccounts (baselineAddress witnessCfg witnessVai.vote_pubkey))
          (baselineAddress witnessCfg witnessVai.vote_pubkey) = .ok (bal, st) ∧
          bal ≠ witnessCfg.baseline_stake_amount) ∨
      (∃ bal st, get_stake_account (mismatchAccounts (bonusAddress witnessCfg witnessVai.vote_pubkey))
          (bonusAddress witnessCfg witnessVai.vote_pubkey) = .ok (bal, st) ∧
          bal ≠ witnessCfg.bonus_stake_amount))) ∧
    ∃ e, mainStakePhase witnessCfg 1000000 [] mismatchAccounts [witnessVai] 1000
        intentOracle intentOracle = ⟨[], [], some (.error e)⟩ :=
  ⟨⟨by decide, Or.inl ⟨50, .initialized, by decide, by decide⟩⟩,
   balance_mismatch_aborts witnessCfg 1000000 [] mismatchAccounts [witnessVai] witnessVai 1000
     intentOracle intentOracle (by decide) (Or.inl ⟨50, .initialized, by decide, by decide⟩)⟩

/-- The liveness branch never changes the funding requirement or the
create list it is handed. -/
theorem livenessStep_fields (cfg : Config) (s : Nat) (quality : List Pubkey)
    (vai : VoteAccountInfo) (r : Lamports) (c : List TxIntent) (baddr xaddr : Pubkey) :
    (livenessStep cfg s quality vai r c baddr xaddr).creates = c ∧
    (livenessStep cfg s quality vai r c baddr xaddr).required = r := by
  unfold livenessStep
  split_ifs <;> exact ⟨rfl, rfl⟩

/-- Claim C8 counterexample: when every account lookup fails (as on an
RPC outage), the existence check does not abort the run: the loop
iteration succeeds and emits create transactions for both accounts, so a
failed stake-account lookup silently falls through to the
account-missing outcome. -/
theorem lookup_failure_creates_counterexample :
    processValidator witnessCfg 1000 [] failingAccounts ⟨"VOTE", "NODE", 900⟩ =
      .ok ⟨300,
        [baselineCreateIntent witnessCfg ⟨"VOTE", "NODE", 900⟩,
         bonusCreateIntent witnessCfg ⟨"VOTE", "NODE", 900⟩],
        [⟨.delegateStake (baselineAddress witnessCfg "VOTE") witnessCfg.authorized_staker "VOTE",
          "NODE"⟩,
         ⟨.deactivateStake (bonusAddress witnessCfg "VOTE") witnessCfg.authorized_staker,
          "NODE"⟩],
        some true⟩ := by
  decide

/-- Any failing read inside the classifier makes it fail: the failure
is propagated, never retried. -/
theorem classify_reads_error_of_read_error {pct : Nat} {minl_r : Except String Slot}
    {conf_r : Except String (List Slot)} {sched_r : Except String (List (Pubkey × List Nat))}
    {fsie lsie : Slot}
    (hfail : (∃ e, minl_r = .error e) ∨ (∃ e, conf_r = .error e) ∨ (∃ e, sched_r = .error e)) :
    ∃ e, classify_block_producers_reads pct minl_r conf_r sched_r fsie lsie = .error e := by
  unfold classify_block_producers_reads
  rcases hm : minl_r with em | minl
  · exact ⟨em, rfl⟩
  · dsimp only
    by_cases hge : minl ≥ lsie
    · rw [if_pos hge]
      exact ⟨_, rfl⟩
    · rw [if_neg hge]
      rcases hc : conf_r with ec | conf
      · exact ⟨ec, rfl⟩
      · dsimp only
        rcases hs : sched_r with es | sched
        · exact ⟨es, rfl⟩
        · exfalso
          rcases hfail with ⟨e, he⟩ | ⟨e, he⟩ | ⟨e, he⟩
          · rw [he] at hm
            cases hm
          · rw [he] at hc
            cases hc
          · rw [he] at hs
            cases hs

/-- Any failing chain read at the head of main makes the prelude fail:
the failure is propagated and the run aborts with no retry. -/
theorem mainPrelude_error_of_read_error {cfg : Config} {wl : List Pubkey} {r : PreludeReads}
    (hfail :
      (∃ e, r.epoch_info = .error e) ∨ (∃ e, r.source_account = .error e) ∨
      (∃ e, r.epoch_schedule = .error e) ∨ (∃ e, r.minimum_ledger_slot = .error e) ∨
      (∃ e, r.confirmed_blocks = .error e) ∨ (∃ e, r.leader_schedule = .error e) ∨
      (∃ e, r.vote_accounts = .error e)) :
    ∃ e, mainPrelude cfg wl r = .error e := by
  unfold mainPrelude
  rcases hei : r.epoch_info with e | ei
  · exact ⟨e, rfl⟩
  · dsimp only
    rcases hga : get_stake_account r.source_account cfg.source_stake_address with e | pr
    · exact ⟨e, rfl⟩
    · rcases pr with ⟨bal, st⟩
      dsimp only
      by_cases hst : st ≠ .initialized
      · rw [if_pos hst]
        exact ⟨_, rfl⟩
      · rw [if_neg hst]
        rcases hes : r.epoch_schedule with e | es
        · exact ⟨e, rfl⟩
        · dsimp only
          rcases hcl : classify_block_producers_reads cfg.quality_block_producer_percentage
              r.minimum_ledger_slot r.confirmed_blocks r.leader_schedule
              (es (ei.epoch - 1)).1 (es (ei.epoch - 1)).2 with e | producers
          · exact ⟨e, rfl⟩
          · dsimp only
            rcases hva : r.vote_accounts with e | cd
            · exact ⟨e, rfl⟩
            · rcases cd with ⟨cur, del⟩
              exfalso
              rcases hfail with ⟨e, he⟩ | ⟨e, he⟩ | ⟨e, he⟩ | hf | hf | hf | ⟨e, he⟩
              · rw [he] at hei
                cases hei
              · rw [he] at hga
                simp [get_stake_account] at hga
              · rw [he] at hes
                cases hes
              · rcases classify_reads_error_of_read_error (Or.inl hf) with ⟨e2, hcle⟩
                rw [hcl] at hcle
                cases hcle
              · rcases classify_reads_error_of_read_error (Or.inr (Or.inl hf)) with ⟨e2, hcle⟩
                rw [hcl] at hcle
                cases hcle
              · rcases classify_reads_error_of_read_error (Or.inr (Or.inr hf)) with ⟨e2, hcle⟩
                rw [hcl] at hcle
                cases hcle
              · rw [he] at hva
                cases hva

/-- Claim C8 as amended: get_stake_account surfaces every fetch, owner,
and decode failure as an error; each chain read at the head of main
(epoch info, source stake account, epoch schedule, minimum ledger slot,
confirmed blocks, leader schedule, vote accounts) is propagated with no
retry, so any one of them failing aborts the run; but the per-validator
existence check absorbs a failed lookup of either derived stake account,
treating it as account-not-exists and emitting the corresponding create
actions rather than aborting. -/
theorem chain_read_failure_handling
    (cfg : Config) (wl quality : List Pubkey) (r : PreludeReads)
    (accounts : Pubkey → Except String Account) (vai : VoteAccountInfo) (s : Nat)
    (fe de addr : String) (acctO acctD : Account) (e1 e2 : String)
    (howner : acctO.owner ≠ stakeProgramId)
    (hdowner : acctD.owner = stakeProgramId)
    (hdecode : acctD.state = .error de)
    (hb : accounts (baselineAddress cfg vai.vote_pubkey) = .error e1)
    (hx : accounts (bonusAddress cfg vai.vote_pubkey) = .error e2)
    (hfail :
      (∃ e, r.epoch_info = .error e) ∨ (∃ e, r.source_account = .error e) ∨
      (∃ e, r.epoch_schedule = .error e) ∨ (∃ e, r.minimum_ledger_slot = .error e) ∨
      (∃ e, r.confirmed_blocks = .error e) ∨ (∃ e, r.leader_schedule = .error e) ∨
      (∃ e, r.vote_accounts = .error e)) :
    (get_stake_account (.error fe) addr =
        .error ("Failed to fetch stake account " ++ addr ++ ": " ++ fe) ∧
     get_stake_account (.ok acctO) addr =
        .error ("not a stake account (owned by " ++ acctO.owner ++ "): " ++ addr) ∧
     get_stake_account (.ok acctD) addr =
        .error ("Failed to decode stake account at " ++ addr ++ ": " ++ de)) ∧
    (∃ e, mainPrelude cfg wl r = .error e) ∧
    (∃ out, processValidator cfg s quality accounts vai = .ok out ∧
      out.creates = [baselineCreateIntent cfg vai, bonusCreateIntent cfg vai] ∧
      out.required = cfg.baseline_stake_amount + cfg.bonus_stake_amount) := by
  refine ⟨⟨rfl, ?_, ?_⟩, mainPrelude_error_of_read_error hfail, ?_⟩
  · unfold get_stake_account
    dsimp only
    rw [if_pos howner]
  · unfold get_stake_account
    dsimp only
    rw [if_neg (not_not.mpr hdowner), hdecode]
  · unfold processValidator
    dsimp only
    rw [checkStakeAccount_fetch_error hb, checkStakeAccount_fetch_error hx]
    exact ⟨_, rfl,
      (livenessStep_fields cfg s quality vai _ _ _ _).1,
      (livenessStep_fields cfg s quality vai _ _ _ _).2⟩

/-- Witness for C8 as amended: concrete wrong-owner and undecodable
accounts, the epoch-info read failing with every other read fine, and
the all-lookups-fail oracle for the existence check. -/
theorem chain_read_failure_handling_witness :
    (wrongOwnerAccount.owner ≠ stakeProgramId ∧
     undecodableAccount.owner = stakeProgramId ∧
     undecodableAccount.state = .error "truncated" ∧
     failingAccounts (baselineAddress witnessCfg witnessVai.vote_pubkey) =
        .error "connection refused" ∧
     failingAccounts (bonusAddress witnessCfg witnessVai.vote_pubkey) =
        .error "connection refused" ∧
     epochFailReads.epoch_info = .error "epoch info unavailable") ∧
    ((get_stake_account (.error "boom") "X" =
        .error ("Failed to fetch stake account " ++ "X" ++ ": " ++ "boom") ∧
      get_stake_account (.ok wrongOwnerAccount) "X" =
        .error ("not a stake account (owned by " ++ wrongOwnerAccount.owner ++ "): " ++ "X") ∧
      get_stake_account (.ok undecodableAccount) "X" =
        .error ("Failed to decode stake account at " ++ "X" ++ ": " ++ "truncated")) ∧
    (∃ e, mainPrelude witnessCfg [] epochFailReads = .error e) ∧
    (∃ out, processValidator witnessCfg 1000000 [] failingAccounts witnessVai = .ok out ∧
      out.creates = [baselineCreateIntent witnessCfg witnessVai,
                     bonusCreateIntent witnessCfg witnessVai] ∧
      out.required = witnessCfg.baseline_stake_amount + witnessCfg.bonus_stake_amount)) :=
  ⟨⟨by decide, by decide, by decide, by decide, by decide, by decide⟩,
   chain_read_failure_handling witnessCfg [] [] epochFailReads failingAccounts witnessVai
     1000000 "boom" "truncated" "X" wrongOwnerAccount undecodableAccount
     "connection refused" "connection refused"
     (by decide) (by decide) (by decide) (by decide) (by decide)
     (Or.inl ⟨"epoch info unavailable", by decide⟩)⟩

/-- A successful policy loop is exactly the concatenation of its
per-validator outputs in listing order. -/
theorem runPolicy_flatten {cfg : Config} {s : Nat} {quality : List Pubkey}
    {accounts : Pubkey → Except String Account} :
    ∀ (vais : List VoteAccountInfo) (out : PolicyOutput),
      runPolicy cfg s quality accounts vais = .ok out →
      ∃ outs, processAll cfg s quality accounts vais = .ok outs ∧
        out.required = (outs.map ValidatorOutput.required).sum ∧
        out.creates = (outs.map ValidatorOutput.creates).flatten ∧
        out.delegates = (outs.map ValidatorOutput.delegates).flatten := by
  intro vais
  induction vais with
  | nil =>
    intro out hok
    unfold runPolicy at hok
    refine ⟨[], rfl, ?_⟩
    rw [← Except.ok.inj hok]
    simp
  | cons v rest ih =>
    intro out hok
    unfold runPolicy at hok
    rcases h1 : processValidator cfg s quality accounts v with e | o
    · rw [h1] at hok
      cases hok
    · rw [h1] at hok
      rcases h2 : runPolicy cfg s quality accounts rest with e | os
      · rw [h2] at hok
        cases hok
      · rw [h2] at hok
        rcases ih os h2 with ⟨outs, hpa, hr, hc, hd⟩
        refine ⟨o :: outs, ?_, ?_⟩
        · unfold processAll
          rw [h1, hpa]
        · rw [← Except.ok.inj hok]
          simp [hr, hc, hd]

/-- Claim C9 counterexample: with whitelist listed as A then B but the
vote-account listing returning B before A, the action list follows the
vote-account order, so its validator sequence is not ordered by
whitelist position: the claimed whitelist-iteration ordering is false. -/
theorem whitelist_order_counterexample :
    (runPolicy witnessCfg 1000 [] failingAccounts
        (filterWhitelist ["A", "B"] [vaiB, vaiA] [])).map
      (fun out => orderedByIndex ["A", "B"] (out.delegates.map TxIntent.validator)) =
      .ok false := by
  decide

/-- Claim C9 as amended: the policy engine is a pure function of its
inputs, so identical inputs give identical action lists, and the list is
the in-order concatenation of per-validator outputs over the
vote-account listing (current then delinquent, filtered by whitelist
membership), not over the whitelist's own iteration order. -/
theorem policy_order_follows_vote_listing (cfg : Config) (s : Nat) (quality wl : List Pubkey)
    (accounts : Pubkey → Except String Account) (cur del : List VoteAccountInfo)
    (out : PolicyOutput)
    (hok : runPolicy cfg s quality accounts (filterWhitelist wl cur del) = .ok out) :
    ∃ outs, processAll cfg s quality accounts (filterWhitelist wl cur del) = .ok outs ∧
      out.required = (outs.map ValidatorOutput.required).sum ∧
      out.creates = (outs.map ValidatorOutput.creates).flatten ∧
      out.delegates = (outs.map ValidatorOutput.delegates).flatten :=
  runPolicy_flatten (filterWhitelist wl cur del) out hok

/-- Witness for C9 as amended, on the two-validator counterexample
input. -/
theorem policy_order_follows_vote_listing_witness :
    (runPolicy witnessCfg 1000 [] failingAccounts
        (filterWhitelist ["A", "B"] [vaiB, vaiA] []) = .ok orderOut) ∧
    ∃ outs, processAll witnessCfg 1000 [] failingAccounts
        (filterWhitelist ["A", "B"] [vaiB, vaiA] []) = .ok outs ∧
      orderOut.required = (outs.map ValidatorOutput.required).sum ∧
      orderOut.creates = (outs.map ValidatorOutput.creates).flatten ∧
      orderOut.delegates = (outs.map ValidatorOutput.delegates).flatten :=
  ⟨by decide,
   policy_order_follows_vote_listing witnessCfg 1000 [] ["A", "B"] failingAccounts
     [vaiB, vaiA] [] orderOut (by decide)⟩

end StakeOMatic
